import Mathlib

set_option maxRecDepth 100000

/-!
Shallow embedding of the Yorke Peninsula Council development-application
scraper (scraper.js, final revision).  Strings are modelled as Lean
`String`s; the character-level text transformations performed by the
JavaScript regular expressions are implemented over `List Char`.
-/

namespace YorkeScraper

/-- The whitespace characters recognised by the model (the ASCII subset of
the JavaScript `\s` class and of `String.prototype.trim`). -/
def isWsChar (c : Char) : Bool :=
  c = ' ' || c = '\t' || c = '\n' || c = '\r' || c = '\x0b' || c = '\x0c'

/-- Drop whitespace from both ends, as JavaScript `trim()`. -/
def trimWs (l : List Char) : List Char :=
  ((l.dropWhile isWsChar).reverse.dropWhile isWsChar).reverse

/-- Lower-case every character (ASCII case folding, as the JavaScript
`toLowerCase` acts on this scraper's ASCII data). -/
def lowerOf (l : List Char) : List Char := l.map Char.toLower

/-- Upper-case every character (ASCII case folding). -/
def upperOf (l : List Char) : List Char := l.map Char.toUpper

/-- `replace(/^\. /g, " ")`: a leading dot-space becomes a single space. -/
def stripLeadingDot (l : List Char) : List Char :=
  match l with
  | a :: b :: rest => if a = '.' ∧ b = ' ' then ' ' :: rest else l
  | _ => l

/-- `replace(/ \. /g, " ")`: each non-overlapping occurrence of
space-dot-space becomes a single space, scanning left to right. -/
def removeMidDots : List Char → List Char
  | a :: b :: c :: rest =>
    if a = ' ' ∧ b = '.' ∧ c = ' ' then ' ' :: removeMidDots rest
    else a :: removeMidDots (b :: c :: rest)
  | l => l

/-- Scan for the first closing parenthesis; return the characters after it. -/
def afterCloseParen : List Char → Option (List Char)
  | [] => none
  | c :: rest => if c = ')' then some rest else afterCloseParen rest

/-- Recognise `(Hd`, case-insensitively on the letters, returning the
characters following the `Hd`. -/
def hdOpen : List Char → Option (List Char)
  | a :: c1 :: c2 :: rest =>
    if a = '(' ∧ (c1 = 'H' ∨ c1 = 'h') ∧ (c2 = 'D' ∨ c2 = 'd') then some rest
    else none
  | _ => none

theorem hdOpen_length {l t : List Char} (h : hdOpen l = some t) :
    t.length < l.length := by
  match l with
  | [] => simp [hdOpen] at h
  | [a] => simp [hdOpen] at h
  | [a, b] => simp [hdOpen] at h
  | a :: c1 :: c2 :: rest =>
    simp only [hdOpen] at h
    split at h
    · cases h; simp; omega
    · cases h

theorem afterCloseParen_length :
    ∀ {l r : List Char}, afterCloseParen l = some r → r.length < l.length := by
  intro l
  induction l with
  | nil => intro r h; simp [afterCloseParen] at h
  | cons c rest ih =>
    intro r h
    simp only [afterCloseParen] at h
    split at h
    · cases h; simp
    · have := ih h; simp; omega

/-- Structural worker for `removeHdParens`: the fuel argument only bounds
the recursion depth and is always at least the list length at the call
sites, so it never runs out (each step consumes at least one character). -/
def removeHdParensFuel : Nat → List Char → List Char
  | 0, l => l
  | _, [] => []
  | fuel + 1, c :: rest =>
    if c = ' ' then
      match hdOpen rest with
      | some tail =>
        match afterCloseParen tail with
        | some rest2 => removeHdParensFuel fuel rest2
        | none => c :: removeHdParensFuel fuel rest
      | none => c :: removeHdParensFuel fuel rest
    else c :: removeHdParensFuel fuel rest

/-- `replace(/ \(Hd.*?\)/gi, "")`: remove each ` (Hd…)` annotation, the lazy
`.*?` reaching to the first closing parenthesis; when no closing
parenthesis follows, the scan advances a single character. -/
def removeHdParens (l : List Char) : List Char :=
  removeHdParensFuel l.length l

theorem dropWhile_length_le (p : Char → Bool) :
    ∀ l : List Char, (l.dropWhile p).length ≤ l.length := by
  intro l
  induction l with
  | nil => simp
  | cons c rest ih =>
    simp only [List.dropWhile]
    split
    · simp; omega
    · simp

/-- Structural worker for `collapseWs`; the fuel argument is always at
least the list length at the call sites, so it never runs out. -/
def collapseWsFuel : Nat → List Char → List Char
  | 0, l => l
  | _, [] => []
  | _ + 1, [a] => [a]
  | fuel + 1, a :: b :: rest2 =>
    if isWsChar a ∧ isWsChar b then ' ' :: collapseWsFuel fuel (rest2.dropWhile isWsChar)
    else a :: collapseWsFuel fuel (b :: rest2)

/-- `replace(/\s\s+/g, " ")`: each maximal run of two or more whitespace
characters becomes a single space. -/
def collapseWs (l : List Char) : List Char :=
  collapseWsFuel l.length l

/-- The cleaning phase of `formatAddress` (scraper.js line 380):
`address.replace(/^\. /g, " ").replace(/ \. /g, " ")
        .replace(/ \(Hd.*?\)/gi, "").replace(/\s\s+/g, " ").trim()`. -/
def cleanChars (l : List Char) : List Char :=
  trimWs (collapseWs (removeHdParens (removeMidDots (stripLeadingDot l))))

/-- String-level wrapper for the cleaning phase. -/
def cleanAddress (s : String) : String := ⟨cleanChars s.data⟩

/-- JavaScript `String.prototype.split(" ")`: split at every single space,
keeping empty segments. -/
def splitSpaces : List Char → List (List Char)
  | [] => [[]]
  | c :: rest =>
    if c = ' ' then [] :: splitSpaces rest
    else
      match splitSpaces rest with
      | t :: ts => (c :: t) :: ts
      | [] => [[c]]

/-- `tokens.join(" ")`. -/
def joinSpaces : List (List Char) → List Char
  | [] => []
  | [t] => t
  | t :: ts => t ++ ' ' :: joinSpaces ts

/-- The edit distance used by the `didyoumean` call (scraper.js line 398):
case-insensitive (`caseSensitive: false`), space-trimmed
(`trimSpace: true`) Levenshtein distance with unit costs. -/
def dymDist (input k : String) : Nat :=
  levenshtein Levenshtein.defaultCost
    (lowerOf (trimWs input.data)) (lowerOf (trimWs k.data))

/-- The `didyoumean` lookup of scraper.js line 398, with
`returnType: "first-closest-match"`, `thresholdType: "edit-distance"` and
`threshold: 1`: the first key at the least edit distance from the input,
provided that distance is at most 1. -/
def dymLookup (input : String) (keys : List String) : Option String :=
  match keys.find? (fun k => dymDist input k == 0) with
  | some k => some k
  | none => keys.find? (fun k => decide (dymDist input k ≤ 1))

/-- `tokens.slice(-index).join(" ")`: the trailing `index` tokens joined by
single spaces.  `slice(-index)` clamps to the whole list when `index`
exceeds the token count, which `List.drop` with truncated subtraction
reproduces. -/
def windowText (tokens : List (List Char)) (index : Nat) : String :=
  ⟨joinSpaces (tokens.drop (tokens.length - index))⟩

/-- One step of the suburb-name loop of `formatAddress`: for window sizes
`index, index - 1, …, 1` try `didyoumean(tokens.slice(-index).join(" "),
Object.keys(SuburbNames), …)`; on the first hit return the canonical
suburb string `SuburbNames[match]` together with the remaining leading
tokens (`tokens.splice(-index, index)`). -/
def suburbSearch (suburbs : List (String × String)) (tokens : List (List Char)) :
    Nat → Option (List Char × List (List Char))
  | 0 => none
  | i + 1 =>
    match dymLookup (windowText tokens (i + 1)) (suburbs.map (fun p => p.1)) with
    | some k =>
      some ((((suburbs.find? (fun p => p.1 == k)).map (fun p => p.2)).getD "").data,
            tokens.take (tokens.length - (i + 1)))
    | none => suburbSearch suburbs tokens i

/-- `formatAddress` (scraper.js lines 375-412).  `suburbs` models the
`SuburbNames` object as an association list in key-insertion order and
`hundreds` models the `HundredNames` array. -/
def formatAddress (suburbs : List (String × String)) (hundreds : List String)
    (address : String) : String :=
  let a := cleanChars address.data
  if a = [] then ⟨a⟩
  else if hundreds.any (fun h =>
      upperOf a == ("HD " ++ h).data || (" HD " ++ h).data.isSuffixOf (upperOf a)) then
    ⟨a⟩
  else
    match suburbSearch suburbs (splitSpaces a) 4 with
    | none => ⟨a⟩
    | some (suburbName, rest) =>
      let streetName := trimWs (joinSpaces rest)
      ⟨trimWs (streetName ++ (if streetName = [] then [] else [',', ' ']) ++ suburbName)⟩

/-- A row of the sqlite `[data]` table (scraper.js line 312): columns
`council_reference` (primary key), `address`, `description`, `info_url`,
`comment_url`, `date_scraped`, `date_received`, `on_notice_from`,
`on_notice_to`; the last two are always inserted as SQL NULL, modelled by
`Option String`. -/
structure Row where
  council_reference : String
  address : String
  description : String
  info_url : String
  comment_url : String
  date_scraped : String
  date_received : String
  on_notice_from : Option String
  on_notice_to : Option String
deriving DecidableEq, Repr

/-- The transient record built per detail page (scraper.js lines 450-458). -/
structure DevelopmentApplication where
  applicationNumber : String
  address : String
  description : String
  informationUrl : String
  commentUrl : String
  scrapeDate : String
  receivedDate : String
deriving DecidableEq, Repr

/-- The row that `insertRow` binds for a candidate application
(scraper.js lines 321-331): the seven record fields followed by two NULLs. -/
def rowOf (da : DevelopmentApplication) : Row :=
  { council_reference := da.applicationNumber
    address := da.address
    description := da.description
    info_url := da.informationUrl
    comment_url := da.commentUrl
    date_scraped := da.scrapeDate
    date_received := da.receivedDate
    on_notice_from := none
    on_notice_to := none }

/-- `insertRow` (scraper.js lines 318-349): `insert or ignore into [data]`.
The insert is ignored exactly when a row with the same primary key
`council_reference` already exists; the returned Bool is the
`this.changes > 0` flag resolved by the promise (true iff inserted). -/
def insertRow (db : List Row) (da : DevelopmentApplication) : List Row × Bool :=
  if db.any (fun r => r.council_reference == da.applicationNumber) then (db, false)
  else (db ++ [rowOf da], true)

/-- The superseded URL form targeted by `updateRow`'s
`like 'https://…/development-register/entry/%'` pattern. -/
def legacyEntryUrl : String :=
  "https://yorke.sa.gov.au/development/development-information/development-register/entry/"

/-- SQLite `LIKE 'prefix%'`: the pattern has no `_` or inner `%`
metacharacters, so it holds exactly when the ASCII-case-folded column value
starts with the ASCII-case-folded prefix (SQLite's LIKE is
case-insensitive for ASCII by default). -/
def likeLegacy (s : String) : Bool :=
  (lowerOf legacyEntryUrl.data).isPrefixOf (lowerOf s.data)

/-- The per-row effect of `updateRow`'s UPDATE statement: rows satisfying
the WHERE clause get `info_url` set to the candidate's `informationUrl`;
all other rows and all other columns are untouched. -/
def updOne (da : DevelopmentApplication) (r : Row) : Row :=
  if likeLegacy r.info_url && r.council_reference == da.applicationNumber then
    { r with info_url := da.informationUrl }
  else r

/-- `updateRow` (scraper.js lines 351-365): `update [data] set [info_url] = ?
where [info_url] like 'https://…/entry/%' and [council_reference] = ?`. -/
def updateRow (db : List Row) (da : DevelopmentApplication) : List Row :=
  db.map (updOne da)

/-- The reconcile sequence performed per extracted application
(scraper.js lines 459-461): `insertRow`, and when the insert was ignored
because the key pre-existed, `updateRow`. -/
def reconcile (db : List Row) (da : DevelopmentApplication) : List Row :=
  let res := insertRow db da
  if res.2 then res.1 else updateRow res.1 da

/-- Split a character list at every occurrence of the given character
(JavaScript `split`). -/
def splitOnChar (sep : Char) : List Char → List (List Char)
  | [] => [[]]
  | c :: rest =>
    if c = sep then [] :: splitOnChar sep rest
    else
      match splitOnChar sep rest with
      | t :: ts => (c :: t) :: ts
      | [] => [[c]]

/-- Decimal digit test. -/
def isDigitChar (c : Char) : Bool := '0' ≤ c ∧ c ≤ '9'

/-- Value of a decimal digit string. -/
def natOfDigits (l : List Char) : Nat :=
  l.foldl (fun n c => n * 10 + (c.toNat - 48)) 0

/-- Gregorian leap-year rule. -/
def isLeapYear (y : Nat) : Bool := (y % 4 = 0 ∧ y % 100 ≠ 0) ∨ y % 400 = 0

/-- Days in a month, as moment.js validity checking uses. -/
def daysInMonth (y m : Nat) : Nat :=
  if m = 2 then (if isLeapYear y then 29 else 28)
  else if m = 4 ∨ m = 6 ∨ m = 9 ∨ m = 11 then 30
  else 31

/-- `moment(text, "D/MM/YYYY", true)` (scraper.js line 443): strict parse of
a 1-2 digit day, 2 digit month and 4 digit year separated by slashes,
valid only when the triple is a real calendar date.  `none` models an
invalid moment. -/
def parseDMY (s : String) : Option (Nat × Nat × Nat) :=
  match splitOnChar '/' s.data with
  | [d, m, y] =>
    if (d.length = 1 ∨ d.length = 2) ∧ d.all isDigitChar ∧
        m.length = 2 ∧ m.all isDigitChar ∧ y.length = 4 ∧ y.all isDigitChar then
      let dn := natOfDigits d
      let mn := natOfDigits m
      let yn := natOfDigits y
      if 1 ≤ mn ∧ mn ≤ 12 ∧ 1 ≤ dn ∧ dn ≤ daysInMonth yn mn then some (yn, mn, dn)
      else none
    else none
  | _ => none

/-- Zero-pad a number to two digits. -/
def pad2 (n : Nat) : String := if n < 10 then "0" ++ toString n else toString n

/-- Zero-pad a number to four digits. -/
def pad4 (n : Nat) : String :=
  if n < 10 then "000" ++ toString n
  else if n < 100 then "00" ++ toString n
  else if n < 1000 then "0" ++ toString n
  else toString n

/-- `format("YYYY-MM-DD")` on a moment value: the ISO date for a valid
moment, and moment's literal `"Invalid date"` output for an invalid one. -/
def momentFormatYMD : Option (Nat × Nat × Nat) → String
  | some (y, m, d) => pad4 y ++ "-" ++ pad2 m ++ "-" ++ pad2 d
  | none => "Invalid date"

/-- `replace(/&apos;/g, "'")` applied to the development details text. -/
def replaceApos : List Char → List Char
  | '&' :: 'a' :: 'p' :: 'o' :: 's' :: ';' :: rest => Char.ofNat 39 :: replaceApos rest
  | c :: rest => c :: replaceApos rest
  | [] => []

/-- One key/value row of the detail page's `table.gv-table-view-content`:
`key` is the `th` text and `value` the `td` text. -/
structure DetailRow where
  key : String
  value : String
deriving DecidableEq, Repr

/-- The fields extracted from a detail page (scraper.js lines 435-446):
scanning the rows in order, the last `DA NUMBER`, `DATE APPLICATION
RECEIVED` and `DEVELOPMENT DETAILS` rows win; the received date starts out
as the invalid moment `moment.invalid()`. -/
def extractDetails (rows : List DetailRow) :
    String × Option (Nat × Nat × Nat) × String :=
  rows.foldl
    (fun acc row =>
      let key := ⟨trimWs (upperOf row.key.data)⟩
      if key = "DA NUMBER" then (⟨trimWs row.value.data⟩, acc.2.1, acc.2.2)
      else if key = "DATE APPLICATION RECEIVED" then
        (acc.1, parseDMY ⟨trimWs row.value.data⟩, acc.2.2)
      else if key = "DEVELOPMENT DETAILS" then
        (acc.1, acc.2.1, ⟨replaceApos (trimWs row.value.data)⟩)
      else acc)
    ("", none, "")

/-- Hexadecimal digit character (upper case, as `encodeURIComponent`). -/
def hexDigitChar (n : Nat) : Char :=
  if n < 10 then Char.ofNat (48 + n) else Char.ofNat (55 + n)

/-- JavaScript `encodeURIComponent`, restricted to the ASCII data this
scraper handles: unreserved characters pass through, everything else is
percent-encoded. -/
def encodeURIComponent (s : String) : String :=
  ⟨s.data.foldr
    (fun c acc =>
      if c.isAlphanum || c = '-' || c = '_' || c = '.' || c = '!' || c = '~' ||
          c = '*' || c = Char.ofNat 39 || c = '(' || c = ')' then c :: acc
      else Char.ofNat 37 :: hexDigitChar (c.toNat / 16) :: hexDigitChar (c.toNat % 16) :: acc)
    []⟩

/-- Substitute every `{0}` placeholder in a template
(`replace(/\{0\}/g, …)`). -/
def substTemplate (repl : List Char) : List Char → List Char
  | a :: b :: c :: rest =>
    if a = Char.ofNat 123 ∧ b = '0' ∧ c = Char.ofNat 125 then
      repl ++ substTemplate repl rest
    else a :: substTemplate repl (b :: c :: rest)
  | l => l

/-- The `InformationUrl` template (scraper.js line 302). -/
def InformationUrl : String :=
  "https://yorke.sa.gov.au/development/development-information/development-register/?gv_search=&filter_1=\x7b0\x7d&filter_3=&gv_start=&gv_end=&filter_7=&mode=all"

/-- The fixed `CommentUrl` (scraper.js line 303). -/
def CommentUrl : String := "mailto:admin@yorke.sa.gov.au"

/-- The stored information URL for an application number
(scraper.js line 449). -/
def informationUrlFor (applicationNumber : String) : String :=
  ⟨substTemplate (encodeURIComponent applicationNumber).data InformationUrl.data⟩

/-- One listed item whose detail-page link was present (rows lacking the
`#gv-field-31-1 a` href are skipped before this point, scraper.js lines
428-430): the inline `#gv-field-31-7` listing address text and the already
fetched detail-page key/value rows. -/
structure ListingItem where
  address : String
  detailRows : List DetailRow
deriving DecidableEq, Repr

/-- Processing of one listed item (scraper.js lines 431-462): normalize the
trimmed listing address, extract the detail fields, and when both the
application number and the address are non-empty build the
DevelopmentApplication handed to the persistence store; otherwise the item
is skipped.  `today` stands for `moment().format("YYYY-MM-DD")`.  The
stored received date mirrors line 457: the guard reads the property
`receivedDate.isValid` without calling it, and a function object is truthy
for every moment instance, so the guard is constant true and the `""`
branch is dead (see `isValidPropertyTruthy`). -/
def isValidPropertyTruthy (_rd : Option (Nat × Nat × Nat)) : Bool := true

/-- Build the candidate record for an item, or `none` when skipped. -/
def processItem (suburbs : List (String × String)) (hundreds : List String)
    (today : String) (item : ListingItem) : Option DevelopmentApplication :=
  let address := formatAddress suburbs hundreds ⟨trimWs item.address.data⟩
  let fields := extractDetails item.detailRows
  if fields.1 ≠ "" ∧ address ≠ "" then
    some
      { applicationNumber := fields.1
        address := address
        description := fields.2.2
        informationUrl := informationUrlFor fields.1
        commentUrl := CommentUrl
        scrapeDate := today
        receivedDate :=
          if isValidPropertyTruthy fields.2.1 then momentFormatYMD fields.2.1 else "" }
  else none

/-- The applications handed to the persistence store from one page's item
list, in order. -/
def processPage (suburbs : List (String × String)) (hundreds : List String)
    (today : String) (items : List ListingItem) : List DevelopmentApplication :=
  items.filterMap (processItem suburbs hundreds today)

/-- The pagination loop of `parse` (scraper.js lines 419-470), abstracted
over an oracle `hasNext` telling whether listing page `p` contains the
`ul.page-numbers li a.next` link.  The JavaScript loop is
`let pageNumber = 0; while (pageNumber++ < 100) { fetch page pageNumber;
…; if (!hasNextPageLink) return; }`: the fuel argument equals
`100 - pageNumber` and realizes the `pageNumber++ < 100` safety ceiling.
The result lists the page numbers fetched, in order. -/
def parseFrom (hasNext : Nat → Bool) (pageNumber : Nat) : Nat → List Nat
  | 0 => []
  | fuel + 1 =>
    let p := pageNumber + 1
    if hasNext p then p :: parseFrom hasNext p fuel else [p]

/-- The pages fetched for one date window. -/
def parsePagesFetched (hasNext : Nat → Bool) : List Nat :=
  parseFrom hasNext 0 100

/-! ### Helper lemmas -/

theorem lev_self (l : List Char) :
    levenshtein Levenshtein.defaultCost l l = 0 := by
  induction l with
  | nil => simp
  | cons c rest ih =>
    rw [levenshtein_cons_cons, ih]
    simp

theorem lev_eq_zero :
    ∀ {a b : List Char}, levenshtein Levenshtein.defaultCost a b = 0 → a = b := by
  intro a
  induction a with
  | nil =>
    intro b h
    cases b with
    | nil => rfl
    | cons y ys =>
      rw [levenshtein_nil_cons] at h
      simp at h
  | cons x xs ih =>
    intro b h
    cases b with
    | nil =>
      rw [levenshtein_cons_nil] at h
      simp at h
    | cons y ys =>
      rw [levenshtein_cons_cons] at h
      by_cases hxy : x = y
      · subst hxy
        simp at h
        have h3 : levenshtein Levenshtein.defaultCost xs ys = 0 := by omega
        rw [ih h3]
      · simp [hxy] at h

/-- `dymDist input k = 0` holds exactly when input and key agree after the
lookup's trimming and ASCII case folding. -/
theorem dymDist_eq_zero_iff (input k : String) :
    dymDist input k = 0 ↔ lowerOf (trimWs input.data) = lowerOf (trimWs k.data) := by
  constructor
  · intro h; exact lev_eq_zero h
  · intro h; unfold dymDist; rw [h]; exact lev_self _

theorem find?_unique {α : Type} (p : α → Bool) :
    ∀ {l : List α} {a : α}, a ∈ l → p a = true →
      (∀ x ∈ l, p x = true → x = a) → l.find? p = some a := by
  intro l
  induction l with
  | nil => intro a hmem; cases hmem
  | cons c rest ih =>
    intro a hmem hpa huniq
    by_cases hpc : p c = true
    · have : c = a := huniq c (List.mem_cons_self c rest) hpc
      subst this
      simp [List.find?, hpc]
    · have hca : c ≠ a := fun he => hpc (he ▸ hpa)
      have hmem2 : a ∈ rest := by
        rcases List.mem_cons.mp hmem with h | h
        · exact absurd h.symm hca
        · exact h
      have := ih hmem2 hpa (fun x hx => huniq x (List.mem_cons_of_mem c hx))
      simp [List.find?, Bool.of_not_eq_true hpc, this]

/-- When the input coincides (after trimming and case folding) with a key
that no other key collides with, the didyoumean lookup returns exactly
that key: an exact match has distance 0, the least possible. -/
theorem dymLookup_exact {keys : List String} {input key : String}
    (hmem : key ∈ keys)
    (hexact : lowerOf (trimWs input.data) = lowerOf (trimWs key.data))
    (huniq : ∀ k2 ∈ keys,
      lowerOf (trimWs k2.data) = lowerOf (trimWs key.data) → k2 = key) :
    dymLookup input keys = some key := by
  unfold dymLookup
  have hfind : keys.find? (fun k => dymDist input k == 0) = some key := by
    apply find?_unique
    · exact hmem
    · simp [dymDist_eq_zero_iff, hexact]
    · intro x hx hpx
      apply huniq x hx
      rw [← (dymDist_eq_zero_iff input x).mp (by simpa using hpx)]
      exact hexact
  rw [hfind]

theorem suburbSearch_succ (suburbs : List (String × String))
    (tokens : List (List Char)) (i : Nat) :
    suburbSearch suburbs tokens (i + 1) =
      match dymLookup (windowText tokens (i + 1)) (suburbs.map (fun p => p.1)) with
      | some k =>
        some ((((suburbs.find? (fun p => p.1 == k)).map (fun p => p.2)).getD "").data,
              tokens.take (tokens.length - (i + 1)))
      | none => suburbSearch suburbs tokens i := rfl

/-- Descending from window 4 to window `k` when every window strictly above
`k` misses. -/
theorem suburbSearch_reaches (suburbs : List (String × String))
    (tokens : List (List Char)) (k : Nat) :
    ∀ m, k ≤ m → m ≤ 4 →
      (∀ j, k < j → j ≤ 4 →
        dymLookup (windowText tokens j) (suburbs.map (fun p => p.1)) = none) →
      suburbSearch suburbs tokens m = suburbSearch suburbs tokens k := by
  intro m
  induction m with
  | zero =>
    intro hkm _ _
    have : k = 0 := by omega
    rw [this]
  | succ m ih =>
    intro hkm hm4 hnone
    by_cases hkeq : k = m + 1
    · rw [hkeq]
    · have hkm2 : k ≤ m := by omega
      rw [suburbSearch_succ, hnone (m + 1) (by omega) hm4]
      exact ih hkm2 (by omega) hnone

/-- Unfolding of `formatAddress` when the cleaned address is non-empty, the
hundred-name check does not fire and the suburb search succeeds. -/
theorem formatAddress_of_search {suburbs : List (String × String)}
    {hundreds : List String} {address : String}
    {name : List Char} {rest : List (List Char)}
    (ha : cleanChars address.data ≠ [])
    (hh : hundreds.any (fun h =>
      upperOf (cleanChars address.data) == ("HD " ++ h).data ||
        (" HD " ++ h).data.isSuffixOf (upperOf (cleanChars address.data))) = false)
    (hs : suburbSearch suburbs (splitSpaces (cleanChars address.data)) 4 =
      some (name, rest)) :
    formatAddress suburbs hundreds address =
      ⟨trimWs (trimWs (joinSpaces rest) ++
        (if trimWs (joinSpaces rest) = [] then [] else [',', ' ']) ++ name)⟩ := by
  unfold formatAddress
  rw [if_neg ha, hh]
  simp only [Bool.false_eq_true, if_false, hs]

/-- Unfolding of `formatAddress` when the suburb search misses every
window: the cleaned address is returned unchanged. -/
theorem formatAddress_of_no_match {suburbs : List (String × String)}
    {hundreds : List String} {address : String}
    (hnone : ∀ j, 1 ≤ j → j ≤ 4 →
      dymLookup (windowText (splitSpaces (cleanChars address.data)) j)
        (suburbs.map (fun p => p.1)) = none) :
    formatAddress suburbs hundreds address = ⟨cleanChars address.data⟩ := by
  unfold formatAddress
  by_cases ha : cleanChars address.data = []
  · rw [if_pos ha]
  · rw [if_neg ha]
    by_cases hh : hundreds.any (fun h =>
      upperOf (cleanChars address.data) == ("HD " ++ h).data ||
        (" HD " ++ h).data.isSuffixOf (upperOf (cleanChars address.data))) = true
    · rw [if_pos hh]
    · rw [if_neg hh]
      have h40 : suburbSearch suburbs (splitSpaces (cleanChars address.data)) 4 =
          suburbSearch suburbs (splitSpaces (cleanChars address.data)) 0 := by
        apply suburbSearch_reaches _ _ 0 4 (by omega) (by omega)
        intro j hj0 hj4
        exact hnone j (by omega) hj4
      rw [h40]
      rfl

theorem updOne_ref (da : DevelopmentApplication) (r : Row) :
    (updOne da r).council_reference = r.council_reference := by
  unfold updOne
  split <;> rfl

theorem updOne_idem (da : DevelopmentApplication) (r : Row) :
    updOne da (updOne da r) = updOne da r := by
  unfold updOne
  split
  · split <;> rfl
  · rfl

theorem updOne_rowOf (da : DevelopmentApplication) :
    updOne da (rowOf da) = rowOf da := by
  unfold updOne
  split <;> rfl

theorem any_ref_map_updOne (db : List Row) (da : DevelopmentApplication) (apn : String) :
    (db.map (updOne da)).any (fun r => r.council_reference == apn) =
      db.any (fun r => r.council_reference == apn) := by
  induction db with
  | nil => rfl
  | cons r rest ih => simp [updOne_ref, ih]

theorem map_updOne_idem (db : List Row) (da : DevelopmentApplication) :
    (db.map (updOne da)).map (updOne da) = db.map (updOne da) := by
  induction db with
  | nil => rfl
  | cons r rest ih => simp [updOne_idem, ih]

theorem updOne_of_ref_ne (da : DevelopmentApplication) (r : Row)
    (h : (r.council_reference == da.applicationNumber) = false) :
    updOne da r = r := by
  unfold updOne
  rw [h]
  simp

theorem map_updOne_of_absent (db : List Row) (da : DevelopmentApplication)
    (h : db.any (fun r => r.council_reference == da.applicationNumber) = false) :
    db.map (updOne da) = db := by
  induction db with
  | nil => rfl
  | cons r rest ih =>
    simp only [List.any_cons, Bool.or_eq_false_iff] at h
    rw [List.map_cons, updOne_of_ref_ne da r h.1, ih h.2]

/-- `reconcile` characterized by whether the key pre-exists. -/
theorem reconcile_eq (db : List Row) (da : DevelopmentApplication) :
    reconcile db da =
      if db.any (fun r => r.council_reference == da.applicationNumber) then
        updateRow db da
      else db ++ [rowOf da] := by
  unfold reconcile insertRow
  by_cases h : db.any (fun r => r.council_reference == da.applicationNumber) = true
  · simp [h]
  · simp [h]

/-! ### Claim theorems -/

/-- Claim C1.  Reconciliation is idempotent: running the reconcile sequence
(insert-or-ignore followed, when the insert did not occur, by the
conditional URL update) twice in succession on any store state yields
exactly the state of running it once — in particular all columns of all
rows other than a possibly advanced legacy `info_url` (which the first run
already advances) are unchanged by the second run. -/
theorem reconcile_idempotent (db : List Row) (da : DevelopmentApplication) :
    reconcile (reconcile db da) da = reconcile db da := by
  rw [reconcile_eq db da]
  by_cases h : db.any (fun r => r.council_reference == da.applicationNumber) = true
  · rw [if_pos h, reconcile_eq]
    unfold updateRow
    rw [any_ref_map_updOne, if_pos h, map_updOne_idem]
  · rw [if_neg h, reconcile_eq]
    have hmem : (db ++ [rowOf da]).any
        (fun r => r.council_reference == da.applicationNumber) = true := by
      simp [rowOf]
    rw [if_pos hmem]
    unfold updateRow
    rw [List.map_append, map_updOne_of_absent db da (by simpa using h)]
    simp [updOne_rowOf]

/-- Claim C2, counterexample.  SQLite's `LIKE` is case-insensitive for
ASCII, so the conditional update can rewrite a stored `info_url` that does
not start with the legacy prefix as literally stated (here an upper-case
variant): the insert is ignored, the stored URL is not an extension of the
legacy prefix, yet the row is modified. -/
theorem updateRow_not_prefix_counterexample :
    (insertRow
      [{ council_reference := "353/057/2015", address := "A", description := "B"
         info_url := "HTTPS://YORKE.SA.GOV.AU/DEVELOPMENT/DEVELOPMENT-INFORMATION/DEVELOPMENT-REGISTER/ENTRY/22"
         comment_url := "C", date_scraped := "D", date_received := "E"
         on_notice_from := none, on_notice_to := none }]
      { applicationNumber := "353/057/2015", address := "A2", description := "B2"
        informationUrl := "https://example.org/new", commentUrl := "C"
        scrapeDate := "D2", receivedDate := "E2" }).2 = false ∧
    legacyEntryUrl.data.isPrefixOf
      "HTTPS://YORKE.SA.GOV.AU/DEVELOPMENT/DEVELOPMENT-INFORMATION/DEVELOPMENT-REGISTER/ENTRY/22".data
      = false ∧
    reconcile
      [{ council_reference := "353/057/2015", address := "A", description := "B"
         info_url := "HTTPS://YORKE.SA.GOV.AU/DEVELOPMENT/DEVELOPMENT-INFORMATION/DEVELOPMENT-REGISTER/ENTRY/22"
         comment_url := "C", date_scraped := "D", date_received := "E"
         on_notice_from := none, on_notice_to := none }]
      { applicationNumber := "353/057/2015", address := "A2", description := "B2"
        informationUrl := "https://example.org/new", commentUrl := "C"
        scrapeDate := "D2", receivedDate := "E2" } =
      [{ council_reference := "353/057/2015", address := "A", description := "B"
         info_url := "https://example.org/new"
         comment_url := "C", date_scraped := "D", date_received := "E"
         on_notice_from := none, on_notice_to := none }] := by
  refine ⟨by decide, by decide, by decide⟩

theorem updOne_frame (da : DevelopmentApplication) (r : Row) :
    (updOne da r).council_reference = r.council_reference ∧
    (updOne da r).address = r.address ∧
    (updOne da r).description = r.description ∧
    (updOne da r).comment_url = r.comment_url ∧
    (updOne da r).date_scraped = r.date_scraped ∧
    (updOne da r).date_received = r.date_received ∧
    (updOne da r).on_notice_from = r.on_notice_from ∧
    (updOne da r).on_notice_to = r.on_notice_to := by
  unfold updOne
  split <;> exact ⟨rfl, rfl, rfl, rfl, rfl, rfl, rfl, rfl⟩

theorem updOne_info_url_pos (da : DevelopmentApplication) (r : Row)
    (h : likeLegacy r.info_url = true ∧ r.council_reference = da.applicationNumber) :
    (updOne da r).info_url = da.informationUrl := by
  unfold updOne
  rw [if_pos (by simp [h.1, h.2])]

theorem updOne_info_url_neg (da : DevelopmentApplication) (r : Row)
    (h : ¬(likeLegacy r.info_url = true ∧ r.council_reference = da.applicationNumber)) :
    (updOne da r).info_url = r.info_url := by
  unfold updOne
  rw [if_neg]
  intro hc
  simp only [Bool.and_eq_true, beq_iff_eq] at hc
  exact h hc

/-- Claim C2, amended.  The follow-up update modifies only the `info_url`
column, and only of rows whose `council_reference` equals the candidate's
`applicationNumber` and whose stored `info_url` starts with the legacy
prefix up to ASCII letter case (the SQLite `LIKE` comparison); every other
column of every row, and every non-matching row entirely, is left
unchanged. -/
theorem updateRow_frame (db : List Row) (da : DevelopmentApplication)
    (i : Nat) (h1 : i < db.length) (h2 : i < (updateRow db da).length) :
    (updateRow db da).length = db.length ∧
    ((updateRow db da).get ⟨i, h2⟩).council_reference = (db.get ⟨i, h1⟩).council_reference ∧
    ((updateRow db da).get ⟨i, h2⟩).address = (db.get ⟨i, h1⟩).address ∧
    ((updateRow db da).get ⟨i, h2⟩).description = (db.get ⟨i, h1⟩).description ∧
    ((updateRow db da).get ⟨i, h2⟩).comment_url = (db.get ⟨i, h1⟩).comment_url ∧
    ((updateRow db da).get ⟨i, h2⟩).date_scraped = (db.get ⟨i, h1⟩).date_scraped ∧
    ((updateRow db da).get ⟨i, h2⟩).date_received = (db.get ⟨i, h1⟩).date_received ∧
    ((updateRow db da).get ⟨i, h2⟩).on_notice_from = (db.get ⟨i, h1⟩).on_notice_from ∧
    ((updateRow db da).get ⟨i, h2⟩).on_notice_to = (db.get ⟨i, h1⟩).on_notice_to ∧
    ((likeLegacy (db.get ⟨i, h1⟩).info_url = true ∧
        (db.get ⟨i, h1⟩).council_reference = da.applicationNumber) →
      ((updateRow db da).get ⟨i, h2⟩).info_url = da.informationUrl) ∧
    (¬(likeLegacy (db.get ⟨i, h1⟩).info_url = true ∧
        (db.get ⟨i, h1⟩).council_reference = da.applicationNumber) →
      ((updateRow db da).get ⟨i, h2⟩).info_url = (db.get ⟨i, h1⟩).info_url) := by
  have hm : (updateRow db da).get ⟨i, h2⟩ = updOne da (db.get ⟨i, h1⟩) := by
    simp [updateRow]
  have hf := updOne_frame da (db.get ⟨i, h1⟩)
  refine ⟨by simp [updateRow], ?_, ?_, ?_, ?_, ?_, ?_, ?_, ?_, ?_, ?_⟩
  · rw [hm]; exact hf.1
  · rw [hm]; exact hf.2.1
  · rw [hm]; exact hf.2.2.1
  · rw [hm]; exact hf.2.2.2.1
  · rw [hm]; exact hf.2.2.2.2.1
  · rw [hm]; exact hf.2.2.2.2.2.1
  · rw [hm]; exact hf.2.2.2.2.2.2.1
  · rw [hm]; exact hf.2.2.2.2.2.2.2
  · intro h; rw [hm]; exact updOne_info_url_pos da _ h
  · intro h; rw [hm]; exact updOne_info_url_neg da _ h

/-- Claim C4.  When the cleaned, upper-cased address exactly equals
`HD <hundred-name>` or ends with ` HD <hundred-name>` for an entry of the
hundred-name set, `formatAddress` returns the cleaned address unchanged:
suburb substitution never fires. -/
theorem formatAddress_hundred_name (suburbs : List (String × String))
    (hundreds : List String) (address : String)
    (h : ∃ hn ∈ hundreds,
      upperOf (cleanChars address.data) = ("HD " ++ hn).data ∨
        (" HD " ++ hn).data.isSuffixOf (upperOf (cleanChars address.data)) = true) :
    formatAddress suburbs hundreds address = ⟨cleanChars address.data⟩ := by
  unfold formatAddress
  by_cases ha : cleanChars address.data = []
  · rw [if_pos ha]
  · rw [if_neg ha]
    have hany : hundreds.any (fun hn =>
        upperOf (cleanChars address.data) == ("HD " ++ hn).data ||
          (" HD " ++ hn).data.isSuffixOf (upperOf (cleanChars address.data))) = true := by
      rw [List.any_eq_true]
      obtain ⟨hn, hmem, hcase⟩ := h
      refine ⟨hn, hmem, ?_⟩
      rcases hcase with hc | hc
      · simp [hc]
      · rw [hc, Bool.or_true]
    rw [if_pos hany]

/-- Witness for `formatAddress_hundred_name`: even with `CLINTON` in the
gazetteer, an address ending in the hundred name `HD CLINTON` is returned
cleaned but otherwise untouched. -/
theorem formatAddress_hundred_name_witness :
    (∃ hn ∈ ["CLINTON"],
      upperOf (cleanChars "Section 64 HD CLINTON".data) = ("HD " ++ hn).data ∨
        (" HD " ++ hn).data.isSuffixOf
          (upperOf (cleanChars "Section 64 HD CLINTON".data)) = true) ∧
    formatAddress [("CLINTON", "CLINTON, SA 5570")] ["CLINTON"]
      "Section 64 HD CLINTON" = "Section 64 HD CLINTON" :=
  ⟨by decide,
    by
      rw [formatAddress_hundred_name [("CLINTON", "CLINTON, SA 5570")] ["CLINTON"]
        "Section 64 HD CLINTON" (by decide)]
      decide⟩

/-- Claim C7.  Normalization is total and degrades gracefully: whenever no
trailing-token window yields a didyoumean match, `formatAddress` returns
the cleaned address unchanged (and, being a total Lean function, it never
raises an error on any input string). -/
theorem formatAddress_no_match_total (suburbs : List (String × String))
    (hundreds : List String) (address : String)
    (hnone : ∀ j, 1 ≤ j → j ≤ 4 →
      dymLookup (windowText (splitSpaces (cleanChars address.data)) j)
        (suburbs.map (fun p => p.1)) = none) :
    formatAddress suburbs hundreds address = cleanAddress address :=
  formatAddress_of_no_match hnone

/-- Witness for `formatAddress_no_match_total`: an empty gazetteer matches
no window, so the cleaned address comes back unchanged. -/
theorem formatAddress_no_match_total_witness :
    formatAddress [] [] "7 Main Road WAROOKA" = cleanAddress "7 Main Road WAROOKA" ∧
    cleanAddress "7 Main Road WAROOKA" = "7 Main Road WAROOKA" :=
  ⟨formatAddress_no_match_total [] [] "7 Main Road WAROOKA" (fun _ _ _ => rfl),
    by decide⟩

/-- Claim C3.  When the trailing `k` tokens of the cleaned address exactly
equal a gazetteer key up to the lookup's trimming and ASCII case folding,
no key collides with that key case-insensitively, and no longer window
matches, `formatAddress` returns the remaining leading tokens joined by
single spaces followed by a comma, a space and the canonical suburb suffix
(comma and space omitted when no leading tokens remain); in particular the
`EDITHBURGH` example of the specification holds. -/
theorem formatAddress_exact_suffix (suburbs : List (String × String))
    (hundreds : List String) (address key value : String) (k : Nat)
    (hk1 : 1 ≤ k) (hk4 : k ≤ 4)
    (ha : cleanChars address.data ≠ [])
    (hh : hundreds.any (fun hn =>
      upperOf (cleanChars address.data) == ("HD " ++ hn).data ||
        (" HD " ++ hn).data.isSuffixOf (upperOf (cleanChars address.data))) = false)
    (hfind : suburbs.find? (fun p => p.1 == key) = some (key, value))
    (hexact : lowerOf (trimWs (windowText (splitSpaces (cleanChars address.data)) k).data) =
      lowerOf (trimWs key.data))
    (huniq : ∀ k2 ∈ suburbs.map (fun p => p.1),
      lowerOf (trimWs k2.data) = lowerOf (trimWs key.data) → k2 = key)
    (hwin : ∀ j, k < j → j ≤ 4 →
      dymLookup (windowText (splitSpaces (cleanChars address.data)) j)
        (suburbs.map (fun p => p.1)) = none) :
    formatAddress suburbs hundreds address =
      ⟨trimWs (trimWs (joinSpaces ((splitSpaces (cleanChars address.data)).take
          ((splitSpaces (cleanChars address.data)).length - k))) ++
        (if trimWs (joinSpaces ((splitSpaces (cleanChars address.data)).take
            ((splitSpaces (cleanChars address.data)).length - k))) = [] then []
          else [',', ' ']) ++ value.data)⟩ ∧
    formatAddress [("EDITHBURGH", "EDITHBURGH, SA 5583")] []
      "106 Sultana Point Road EDITHBURGH (Hd Melville)" =
      "106 Sultana Point Road, EDITHBURGH, SA 5583" := by
  constructor
  · have hkeys : key ∈ suburbs.map (fun p => p.1) := by
      have hm := List.mem_of_find?_eq_some hfind
      exact List.mem_map_of_mem _ hm
    have hdym : dymLookup (windowText (splitSpaces (cleanChars address.data)) k)
        (suburbs.map (fun p => p.1)) = some key :=
      dymLookup_exact hkeys hexact huniq
    obtain ⟨i, rfl⟩ : ∃ i, k = i + 1 := ⟨k - 1, by omega⟩
    have hreach := suburbSearch_reaches suburbs (splitSpaces (cleanChars address.data))
      (i + 1) 4 hk4 (by omega) hwin
    have hs : suburbSearch suburbs (splitSpaces (cleanChars address.data)) 4 =
        some (value.data,
          (splitSpaces (cleanChars address.data)).take
            ((splitSpaces (cleanChars address.data)).length - (i + 1))) := by
      rw [hreach, suburbSearch_succ, hdym]
      dsimp only
      rw [hfind]
      rfl
    exact formatAddress_of_search ha hh hs
  · decide

/-- Witness for `formatAddress_exact_suffix`, instantiated at the
specification's `EDITHBURGH` example with window size 1. -/
theorem formatAddress_exact_suffix_witness :
    formatAddress [("EDITHBURGH", "EDITHBURGH, SA 5583")] []
      "106 Sultana Point Road EDITHBURGH (Hd Melville)" =
      "106 Sultana Point Road, EDITHBURGH, SA 5583" :=
  (formatAddress_exact_suffix [("EDITHBURGH", "EDITHBURGH, SA 5583")] []
    "106 Sultana Point Road EDITHBURGH (Hd Melville)" "EDITHBURGH"
    "EDITHBURGH, SA 5583" 1 (by decide) (by decide) (by decide) (by decide)
    (by decide) (by decide) (by decide)
    (fun j hj1 hj4 => by interval_cases j <;> decide)).2

/-- Claim C5.  The suburb lookup tries trailing windows of size 4 down to 1
with edit-distance threshold exactly 1 (see `dymLookup`), and the longest
matching window wins: when windows 4 and 3 miss, window 2 matches key `k2`
and window 1 matches a distinct key `k1`, the 2-token match is selected
and its canonical suffix is appended. -/
theorem formatAddress_longest_window (suburbs : List (String × String))
    (hundreds : List String) (address k1 k2 v2 : String)
    (ha : cleanChars address.data ≠ [])
    (hh : hundreds.any (fun hn =>
      upperOf (cleanChars address.data) == ("HD " ++ hn).data ||
        (" HD " ++ hn).data.isSuffixOf (upperOf (cleanChars address.data))) = false)
    (h4 : dymLookup (windowText (splitSpaces (cleanChars address.data)) 4)
      (suburbs.map (fun p => p.1)) = none)
    (h3 : dymLookup (windowText (splitSpaces (cleanChars address.data)) 3)
      (suburbs.map (fun p => p.1)) = none)
    (h2 : dymLookup (windowText (splitSpaces (cleanChars address.data)) 2)
      (suburbs.map (fun p => p.1)) = some k2)
    (h1 : dymLookup (windowText (splitSpaces (cleanChars address.data)) 1)
      (suburbs.map (fun p => p.1)) = some k1)
    (hne : k1 ≠ k2)
    (hfind : suburbs.find? (fun p => p.1 == k2) = some (k2, v2)) :
    formatAddress suburbs hundreds address =
      ⟨trimWs (trimWs (joinSpaces ((splitSpaces (cleanChars address.data)).take
          ((splitSpaces (cleanChars address.data)).length - 2))) ++
        (if trimWs (joinSpaces ((splitSpaces (cleanChars address.data)).take
            ((splitSpaces (cleanChars address.data)).length - 2))) = [] then []
          else [',', ' ']) ++ v2.data)⟩ := by
  have hnone : ∀ j, 2 < j → j ≤ 4 →
      dymLookup (windowText (splitSpaces (cleanChars address.data)) j)
        (suburbs.map (fun p => p.1)) = none := by
    intro j hj2 hj4
    interval_cases j
    · exact h3
    · exact h4
  have hreach := suburbSearch_reaches suburbs (splitSpaces (cleanChars address.data))
    2 4 (by omega) (by omega) hnone
  have hs : suburbSearch suburbs (splitSpaces (cleanChars address.data)) 4 =
      some (v2.data,
        (splitSpaces (cleanChars address.data)).take
          ((splitSpaces (cleanChars address.data)).length - 2)) := by
    rw [hreach]
    rw [show (2 : Nat) = 1 + 1 from rfl, suburbSearch_succ]
    rw [show (1 : Nat) + 1 = 2 from rfl, h2]
    dsimp only
    rw [hfind]
    rfl
  exact formatAddress_of_search ha hh hs

/-- Witness for `formatAddress_longest_window`: with gazetteer keys
`AB C` and `C`, the trailing token `C` matches key `C` and the trailing
two tokens `AB C` match key `AB C`; the two-token match is selected. -/
theorem formatAddress_longest_window_witness :
    formatAddress [("AB C", "AB C, SA 1111"), ("C", "C TOWN, SA 2222")] []
      "Z AB C" = "Z, AB C, SA 1111" := by
  rw [formatAddress_longest_window
    [("AB C", "AB C, SA 1111"), ("C", "C TOWN, SA 2222")] [] "Z AB C"
    "C" "AB C" "AB C, SA 1111" (by decide) (by decide) (by decide) (by decide)
    (by decide) (by decide) (by decide) (by decide)]
  decide

/-- Witness for `updateRow_frame` at a concrete store and candidate. -/
theorem updateRow_frame_witness :
    0 < ([{ council_reference := "X", address := "A", description := "B"
            info_url := "https://yorke.sa.gov.au/development/development-information/development-register/entry/5"
            comment_url := "C", date_scraped := "D", date_received := "E"
            on_notice_from := none, on_notice_to := none }] : List Row).length ∧
    (updateRow
      [{ council_reference := "X", address := "A", description := "B"
         info_url := "https://yorke.sa.gov.au/development/development-information/development-register/entry/5"
         comment_url := "C", date_scraped := "D", date_received := "E"
         on_notice_from := none, on_notice_to := none }]
      { applicationNumber := "X", address := "A2", description := "B2"
        informationUrl := "https://example.org/new", commentUrl := "C"
        scrapeDate := "D2", receivedDate := "E2" }).length =
      ([{ council_reference := "X", address := "A", description := "B"
          info_url := "https://yorke.sa.gov.au/development/development-information/development-register/entry/5"
          comment_url := "C", date_scraped := "D", date_received := "E"
          on_notice_from := none, on_notice_to := none }] : List Row).length :=
  ⟨by decide,
    (updateRow_frame
      [{ council_reference := "X", address := "A", description := "B"
         info_url := "https://yorke.sa.gov.au/development/development-information/development-register/entry/5"
         comment_url := "C", date_scraped := "D", date_received := "E"
         on_notice_from := none, on_notice_to := none }]
      { applicationNumber := "X", address := "A2", description := "B2"
        informationUrl := "https://example.org/new", commentUrl := "C"
        scrapeDate := "D2", receivedDate := "E2" } 0 (by decide) (by decide)).1⟩

/-- Claim C6.  The cleaning phase strips a leading or embedded isolated
dot token, removes `(Hd …)` parentheticals case-insensitively, collapses
whitespace runs to a single space and trims; in particular
`"7 The Esplanade . MARION BAY"` cleans to `"7 The Esplanade MARION BAY"`
and then normalizes to `"7 The Esplanade, MARION BAY, SA 5575"` given the
matching gazetteer entry. -/
theorem cleanAddress_spec :
    (∀ s : String, cleanAddress (". " ++ s) = cleanAddress (" " ++ s)) ∧
    cleanAddress "7 The Esplanade . MARION BAY" = "7 The Esplanade MARION BAY" ∧
    cleanAddress "106 Sultana Point Road EDITHBURGH (Hd Melville)" =
      "106 Sultana Point Road EDITHBURGH" ∧
    cleanAddress "10 Coast Road POINT TURTON (hd Para Wurlie)" =
      "10 Coast Road POINT TURTON" ∧
    cleanAddress "  7   The  Esplanade  " = "7 The Esplanade" ∧
    formatAddress [("MARION BAY", "MARION BAY, SA 5575")] []
      "7 The Esplanade . MARION BAY" = "7 The Esplanade, MARION BAY, SA 5575" := by
  refine ⟨?_, by decide, by decide, by decide, by decide, by decide⟩
  intro s
  obtain ⟨l⟩ := s
  cases l <;> rfl

theorem parseFrom_succ (hasNext : Nat → Bool) (pageNumber fuel : Nat) :
    parseFrom hasNext pageNumber (fuel + 1) =
      if hasNext (pageNumber + 1) then
        (pageNumber + 1) :: parseFrom hasNext (pageNumber + 1) fuel
      else [pageNumber + 1] := rfl

theorem getLast?_cons_of_ne_nil {α : Type} (a : α) {l : List α} (h : l ≠ []) :
    (a :: l).getLast? = l.getLast? := by
  cases l with
  | nil => exact absurd rfl h
  | cons b t => rfl

theorem parseFrom_length_le (hasNext : Nat → Bool) :
    ∀ fuel pageNumber, (parseFrom hasNext pageNumber fuel).length ≤ fuel := by
  intro fuel
  induction fuel with
  | zero => intro pageNumber; simp [parseFrom]
  | succ n ih =>
    intro pageNumber
    rw [parseFrom_succ]
    split
    · simpa using ih (pageNumber + 1)
    · simp

theorem parseFrom_no_next_last (hasNext : Nat → Bool) :
    ∀ fuel pageNumber p, p ∈ parseFrom hasNext pageNumber fuel →
      hasNext p = false →
      (parseFrom hasNext pageNumber fuel).getLast? = some p := by
  intro fuel
  induction fuel with
  | zero => intro pageNumber p hp; simp [parseFrom] at hp
  | succ n ih =>
    intro pageNumber p hp hfp
    rw [parseFrom_succ] at hp ⊢
    by_cases hnext : hasNext (pageNumber + 1) = true
    · rw [if_pos hnext] at hp ⊢
      have hpne : p ≠ pageNumber + 1 := by
        intro he
        rw [he] at hfp
        rw [hfp] at hnext
        cases hnext
      have hp2 : p ∈ parseFrom hasNext (pageNumber + 1) n := by
        rcases List.mem_cons.mp hp with h | h
        · exact absurd h hpne
        · exact h
      rw [getLast?_cons_of_ne_nil _ (List.ne_nil_of_mem hp2)]
      exact ih (pageNumber + 1) p hp2 hfp
    · rw [if_neg hnext] at hp ⊢
      simp at hp
      simp [hp]

/-- Claim C8.  Per-window pagination terminates: a page with no next-page
affordance is the last page fetched for its window (so a window whose
first page has none fetches exactly one page), and no window ever fetches
more than 100 listing pages regardless of the markup's next-page
signals. -/
theorem parse_pagination_terminates :
    (∀ hasNext : Nat → Bool, hasNext 1 = false → parsePagesFetched hasNext = [1]) ∧
    (∀ (hasNext : Nat → Bool) (p : Nat), p ∈ parsePagesFetched hasNext →
      hasNext p = false → (parsePagesFetched hasNext).getLast? = some p) ∧
    (∀ hasNext : Nat → Bool, (parsePagesFetched hasNext).length ≤ 100) := by
  refine ⟨?_, ?_, ?_⟩
  · intro hasNext h
    unfold parsePagesFetched
    rw [show (100 : Nat) = 99 + 1 from rfl, parseFrom_succ]
    simp [h]
  · intro hasNext p hp hfp
    exact parseFrom_no_next_last hasNext 100 0 p hp hfp
  · intro hasNext
    exact parseFrom_length_le hasNext 100 0

/-- Witness for `parse_pagination_terminates`: a window whose pages never
advertise a next page fetches exactly page 1, and a window always
advertising one stops at the 100-page ceiling. -/
theorem parse_pagination_terminates_witness :
    parsePagesFetched (fun _ => false) = [1] ∧
    (parsePagesFetched (fun _ => false)).getLast? = some 1 ∧
    (parsePagesFetched (fun _ => true)).length ≤ 100 :=
  ⟨parse_pagination_terminates.1 (fun _ => false) rfl,
    parse_pagination_terminates.2.1 (fun _ => false) 1 (by decide) rfl,
    parse_pagination_terminates.2.2 (fun _ => true)⟩

/-- Claim C9.  An item is handed to the persistence store exactly when
both the parsed application number and the normalized address are
non-empty; an item failing the check contributes nothing and the
processing of the surrounding items continues unchanged (no error is
raised: the functions are total). -/
theorem processItem_handed_iff (suburbs : List (String × String))
    (hundreds : List String) (today : String) :
    (∀ item : ListingItem,
      (processItem suburbs hundreds today item).isSome = true ↔
        ((extractDetails item.detailRows).1 ≠ "" ∧
          formatAddress suburbs hundreds ⟨trimWs item.address.data⟩ ≠ "")) ∧
    (∀ (pre post : List ListingItem) (item : ListingItem),
      ((extractDetails item.detailRows).1 = "" ∨
        formatAddress suburbs hundreds ⟨trimWs item.address.data⟩ = "") →
      processPage suburbs hundreds today (pre ++ item :: post) =
        processPage suburbs hundreds today pre ++
          processPage suburbs hundreds today post) := by
  have hiff : ∀ item : ListingItem,
      (processItem suburbs hundreds today item).isSome = true ↔
        ((extractDetails item.detailRows).1 ≠ "" ∧
          formatAddress suburbs hundreds ⟨trimWs item.address.data⟩ ≠ "") := by
    intro item
    simp only [processItem]
    split
    next hcond => exact iff_of_true rfl hcond
    next hcond => exact iff_of_false (by simp) hcond
  refine ⟨hiff, ?_⟩
  intro pre post item h
  have hnone : processItem suburbs hundreds today item = none := by
    cases hx : processItem suburbs hundreds today item with
    | none => rfl
    | some da =>
      have hs : (processItem suburbs hundreds today item).isSome = true := by
        rw [hx]; rfl
      have hboth := (hiff item).mp hs
      rcases h with h | h
      · exact absurd h hboth.1
      · exact absurd h hboth.2
  unfold processPage
  rw [List.filterMap_append, List.filterMap_cons, hnone]

/-- Witness for `processItem_handed_iff`: an item with a DA number and an
address is handed over, and an item whose detail rows lack a DA number is
skipped without disturbing its neighbours. -/
theorem processItem_handed_iff_witness :
    ((processItem [] [] "2020-06-01"
      { address := "1 Main Street",
        detailRows := [{ key := "DA NUMBER", value := "20201234" }] }).isSome = true) ∧
    processPage [] [] "2020-06-01"
      ([{ address := "1 Main Street",
          detailRows := [{ key := "DA NUMBER", value := "20201234" }] }] ++
        { address := "2 Side Street", detailRows := [] } ::
        [{ address := "1 Main Street",
           detailRows := [{ key := "DA NUMBER", value := "20201234" }] }]) =
      processPage [] [] "2020-06-01"
        [{ address := "1 Main Street",
           detailRows := [{ key := "DA NUMBER", value := "20201234" }] }] ++
      processPage [] [] "2020-06-01"
        [{ address := "1 Main Street",
           detailRows := [{ key := "DA NUMBER", value := "20201234" }] }] :=
  ⟨((processItem_handed_iff [] [] "2020-06-01").1 _).mpr (by decide),
    (processItem_handed_iff [] [] "2020-06-01").2 _ _ _ (Or.inl (by decide))⟩

/-- Claim C10.  For every persisted item the stored `receivedDate` equals
`receivedDate.format("YYYY-MM-DD")` of the parsed moment even when parsing
failed: line 457 reads the property `receivedDate.isValid` (a function
reference, always truthy) instead of calling it, so the `""` branch is
unreachable and an item with no parseable `DATE APPLICATION RECEIVED`
value is stored with the formatting of an invalid moment
(`"Invalid date"`), never with the empty string. -/
theorem processItem_receivedDate (suburbs : List (String × String))
    (hundreds : List String) (today : String) (item : ListingItem)
    (da : DevelopmentApplication)
    (h : processItem suburbs hundreds today item = some da) :
    da.receivedDate = momentFormatYMD (extractDetails item.detailRows).2.1 ∧
    ((extractDetails item.detailRows).2.1 = none →
      da.receivedDate = "Invalid date" ∧ da.receivedDate ≠ "") := by
  simp only [processItem] at h
  split at h
  · have hda := Option.some.inj h
    subst hda
    refine ⟨by simp [isValidPropertyTruthy], ?_⟩
    intro hn
    rw [hn]
    simp [isValidPropertyTruthy, momentFormatYMD]
  · cases h

/-- Witness for `processItem_receivedDate`: an item whose received-date
cell is not a parseable `D/MM/YYYY` date is persisted with receivedDate
`"Invalid date"`. -/
theorem processItem_receivedDate_witness :
    ({ applicationNumber := "20201234", address := "1 Main Street",
       description := "Garage", informationUrl := informationUrlFor "20201234",
       commentUrl := CommentUrl, scrapeDate := "2020-06-01",
       receivedDate := "Invalid date" } : DevelopmentApplication).receivedDate =
      momentFormatYMD (extractDetails
        [{ key := "DA NUMBER", value := "20201234" },
         { key := "DATE APPLICATION RECEIVED", value := "sometime later" },
         { key := "DEVELOPMENT DETAILS", value := "Garage" }]).2.1 ∧
    ((extractDetails
        [{ key := "DA NUMBER", value := "20201234" },
         { key := "DATE APPLICATION RECEIVED", value := "sometime later" },
         { key := "DEVELOPMENT DETAILS", value := "Garage" }]).2.1 = none →
      ({ applicationNumber := "20201234", address := "1 Main Street",
         description := "Garage", informationUrl := informationUrlFor "20201234",
         commentUrl := CommentUrl, scrapeDate := "2020-06-01",
         receivedDate := "Invalid date" } : DevelopmentApplication).receivedDate =
        "Invalid date" ∧
      ({ applicationNumber := "20201234", address := "1 Main Street",
         description := "Garage", informationUrl := informationUrlFor "20201234",
         commentUrl := CommentUrl, scrapeDate := "2020-06-01",
         receivedDate := "Invalid date" } : DevelopmentApplication).receivedDate ≠ "") :=
  processItem_receivedDate [] [] "2020-06-01"
    { address := "1 Main Street",
      detailRows :=
        [{ key := "DA NUMBER", value := "20201234" },
         { key := "DATE APPLICATION RECEIVED", value := "sometime later" },
         { key := "DEVELOPMENT DETAILS", value := "Garage" }] }
    _ (by decide)

end YorkeScraper
